import Mathlib

/-!
Shallow embedding of the calendar/date utility module of the repository
(source file: the date & weekday utility TypeScript module) together with
proofs of the specification claims about it.

Modelling conventions:
* A JavaScript `Date` is represented by its time value in milliseconds
  since the Unix epoch, as an `Int`; an *invalid* date (time value `NaN`)
  is represented by `none`, so `JSDate := Option Int`.
* The local time zone of the model is UTC: the component getters
  (`getFullYear`, `getMonth`, `getDate`, `getDay`) are computed from the
  civil (proleptic Gregorian) calendar via the standard days-from-civil /
  civil-from-days algorithms, exactly as ECMAScript computes them for UTC
  (`Day(t) = floor(t / msPerDay)`, `WeekDay(t) = (Day(t) + 4) mod 7`).
* JavaScript numbers are modelled as `Int`: every numeric value the
  claims exercise is an integer within the safe-integer range, where
  JavaScript arithmetic is exact.
* Core string operations (`replace` with a global literal pattern,
  `split`, `trim`, `Number(...)` coercion on integer-literal strings,
  number-to-string) are implemented structurally over `List Char` so that
  they evaluate by kernel reduction.
-/

namespace CommonUtils

/-! ### String primitives over `List Char` -/

/-- One decimal digit rendered as a character. -/
def digitChar (d : Nat) : Char :=
  match d with
  | 0 => '0'
  | 1 => '1'
  | 2 => '2'
  | 3 => '3'
  | 4 => '4'
  | 5 => '5'
  | 6 => '6'
  | 7 => '7'
  | 8 => '8'
  | _ => '9'

/-- Decimal digits of a natural number (fuel-indexed structural recursion;
the fuel `n + 1` always suffices since `n / 10 < n` for `n ≥ 10`). -/
def natToCharsAux : Nat → Nat → List Char
  | 0, _ => []
  | fuel + 1, n =>
    if n < 10 then [digitChar n]
    else natToCharsAux fuel (n / 10) ++ [digitChar (n % 10)]

/-- Decimal rendering of a natural number, modelling JavaScript
`Number.prototype.toString` on nonnegative integers. -/
def natToString (n : Nat) : String :=
  ⟨natToCharsAux (n + 1) n⟩

/-- Decimal rendering of an integer, modelling JavaScript
`Number.prototype.toString` on safe integers. -/
def intToString (n : Int) : String :=
  if n < 0 then "-" ++ natToString n.natAbs else natToString n.natAbs

/-- Whitespace characters recognised by the model (the forms relevant to
the claims; JavaScript trims a larger Unicode set). -/
def isWsChar (c : Char) : Bool :=
  c = ' ' || c = '\t' || c = '\n' || c = '\r'

/-- Trim leading and trailing whitespace from a character list. -/
def trimChars (s : List Char) : List Char :=
  ((s.dropWhile isWsChar).reverse.dropWhile isWsChar).reverse

/-- Parse a nonempty all-digit character list as a natural number. -/
def charsToNat? (cs : List Char) : Option Nat :=
  if cs ≠ [] ∧ cs.all Char.isDigit then
    some (cs.foldl (fun acc c => acc * 10 + (c.toNat - 48)) 0)
  else none

/-- Model of the JavaScript `Number(string)` coercion on the string forms
the module can meet: after trimming whitespace, the empty string is `0`,
an optionally signed digit string is its integer value, and anything else
is `NaN` (`none`).  (Fractional, exponent and radix-prefixed literals are
outside the integer domain exercised by the module.) -/
def jsNumberOfString (s : String) : Option Int :=
  let t := trimChars s.data
  if t = [] then some 0
  else
    match t with
    | '-' :: rest => (charsToNat? rest).map (fun n => -(n : Int))
    | '+' :: rest => (charsToNat? rest).map (fun n => (n : Int))
    | _ => (charsToNat? t).map (fun n => (n : Int))

/-- Replace every occurrence of `pat` in `s` by `rep`, scanning left to
right and skipping over the replaced region, exactly like the JavaScript
`String.prototype.replace` with a global literal-pattern regex.  Fuel-
indexed structural recursion; fuel `s.length` always suffices. -/
def replaceChars (pat rep : List Char) : Nat → List Char → List Char
  | 0, s => s
  | _ + 1, [] => []
  | fuel + 1, c :: rest =>
    if pat ≠ [] ∧ pat.isPrefixOf (c :: rest) then
      rep ++ replaceChars pat rep fuel ((c :: rest).drop pat.length)
    else c :: replaceChars pat rep fuel rest

/-- Global literal-pattern replacement on strings (JavaScript
`s.replace(/pat/g, rep)` for a literal pattern `pat`). -/
def jsReplaceAll (s pat rep : String) : String :=
  ⟨replaceChars pat.data rep.data s.data.length s.data⟩

/-- Split a character list on a separator character (JavaScript
`String.prototype.split` with a one-character separator). -/
def splitOnChar (sep : Char) : List Char → List (List Char)
  | [] => [[]]
  | c :: rest =>
    match splitOnChar sep rest with
    | [] => [[]]
    | grp :: groups => if c = sep then [] :: grp :: groups else (c :: grp) :: groups

/-! ### Civil (proleptic Gregorian) calendar arithmetic -/

/-- Gregorian leap-year rule. -/
def isLeapYear (y : Int) : Bool :=
  (y % 4 == 0 && y % 100 != 0) || y % 400 == 0

/-- Number of days in month `m` (1–12) of year `y`. -/
def daysInMonth (y : Int) (m : Nat) : Nat :=
  match m with
  | 1 => 31
  | 2 => if isLeapYear y then 29 else 28
  | 3 => 31
  | 4 => 30
  | 5 => 31
  | 6 => 30
  | 7 => 31
  | 8 => 31
  | 9 => 30
  | 10 => 31
  | 11 => 30
  | _ => 31

/-- Day number (days since 1970-01-01) of the civil date `y-m-d`
(month 1–12, day 1–31); the standard days-from-civil algorithm.  Here `/`
on `Int` is floor division (the divisors are positive), which agrees with
the truncating-division formulation of the algorithm. -/
def daysFromCivil (y : Int) (m d : Nat) : Int :=
  let yAdj : Int := if m ≤ 2 then y - 1 else y
  let era : Int := yAdj / 400
  let yoe : Int := yAdj - era * 400
  let mp : Nat := if 2 < m then m - 3 else m + 9
  let doy : Int := (153 * (mp : Int) + 2) / 5 + (d : Int) - 1
  let doe : Int := yoe * 365 + yoe / 4 - yoe / 100 + doy
  era * 146097 + doe - 719468

/-- Civil date `(year, month 1–12, day 1–31)` of a day number (days since
1970-01-01); the standard civil-from-days algorithm, inverse of
`daysFromCivil`. -/
def civilFromDays (z : Int) : Int × Nat × Nat :=
  let z2 : Int := z + 719468
  let era : Int := z2 / 146097
  let doe : Nat := (z2 - era * 146097).toNat
  let yoe : Nat := (doe - doe / 1460 + doe / 36524 - doe / 146096) / 365
  let y : Int := (yoe : Int) + era * 400
  let doy : Nat := doe - (365 * yoe + yoe / 4 - yoe / 100)
  let mp : Nat := (5 * doy + 2) / 153
  let d : Nat := doy - (153 * mp + 2) / 5 + 1
  let m : Nat := if mp < 10 then mp + 3 else mp - 9
  (if m ≤ 2 then y + 1 else y, m, d)

/-! ### The JavaScript `Date` model -/

/-- Milliseconds per day. -/
def msPerDay : Int := 86400000

/-- A JavaScript `Date`: a millisecond time value, or `none` for an
invalid date (time value `NaN`). -/
abbrev JSDate := Option Int

/-- `new Date(ms)` for a numeric argument: valid iff the time value is
within ECMAScript's ±8.64e15 ms range. -/
def jsDateFromMs (ms : Int) : JSDate :=
  if ms.natAbs ≤ 8640000000000000 then some ms else none

/-- ECMAScript `Day(t) = floor(t / msPerDay)`. -/
def jsDayNumber (ms : Int) : Int := ms / msPerDay

/-- `Date.prototype.getFullYear` (UTC model). -/
def jsGetFullYear (ms : Int) : Int := (civilFromDays (jsDayNumber ms)).1

/-- `Date.prototype.getMonth` (0-based, UTC model). -/
def jsGetMonth (ms : Int) : Nat := (civilFromDays (jsDayNumber ms)).2.1 - 1

/-- `Date.prototype.getDate` (day of month 1–31, UTC model). -/
def jsGetDate (ms : Int) : Nat := (civilFromDays (jsDayNumber ms)).2.2

/-- `Date.prototype.getDay`: ECMAScript `WeekDay(t) = (Day(t) + 4) mod 7`
(1970-01-01 was a Thursday, index 4). -/
def jsGetDay (ms : Int) : Int := (jsDayNumber ms + 4) % 7

/-- JavaScript `<` on two `Date`s: compares the time values; any
comparison involving an invalid date (`NaN`) is false. -/
def jsDateLt : JSDate → JSDate → Bool
  | some a, some b => a < b
  | _, _ => false

-- Sanity checks of the calendar arithmetic on known dates.
example : civilFromDays 0 = (1970, 1, 1) := by decide
example : daysFromCivil 1970 1 1 = 0 := by decide
example : civilFromDays 19838 = (2024, 4, 25) := by decide
example : daysFromCivil 2024 4 25 = 19838 := by decide
example : jsGetDay 0 = 4 := by decide

/-! ### Weekday registry (`DAY_MAPPINGS`) and conversion -/

/-- The six weekday text styles (`DayFormat` in the source), in their
source-declaration order `koShort, koLong, enShort, enShortCaps, enLong,
enLongCaps`. -/
inductive DayFormat where
  | koShort
  | koLong
  | enShort
  | enShortCaps
  | enLong
  | enLongCaps
deriving DecidableEq, Fintype

/-- The fixed 6×7 weekday table (`DAY_MAPPINGS` in the source). -/
def DAY_MAPPINGS : DayFormat → List String
  | .koShort => ["일", "월", "화", "수", "목", "금", "토"]
  | .koLong => ["일요일", "월요일", "화요일", "수요일", "목요일", "금요일", "토요일"]
  | .enShort => ["sun", "mon", "tue", "wed", "thu", "fri", "sat"]
  | .enShortCaps => ["SUN", "MON", "TUE", "WED", "THU", "FRI", "SAT"]
  | .enLong => ["sunday", "monday", "tuesday", "wednesday", "thursday", "friday", "saturday"]
  | .enLongCaps => ["SUNDAY", "MONDAY", "TUESDAY", "WEDNESDAY", "THURSDAY", "FRIDAY", "SATURDAY"]

/-- The key order produced by `Object.keys(DAY_MAPPINGS)`: the
declaration order of the table. -/
def dayFormatsInOrder : List DayFormat :=
  [.koShort, .koLong, .enShort, .enShortCaps, .enLong, .enLongCaps]

/-- JavaScript `Array.prototype.indexOf`, returning `none` instead of
`-1` when the element is absent. -/
def listIndexOf (l : List String) (s : String) : Option Nat :=
  match l with
  | [] => none
  | x :: rest => if x = s then some 0 else (listIndexOf rest s).map (· + 1)

/-- First-match search of the style tables in declaration order (the loop
body shared by `getDayIndex` and `convertDayFormat` in the source). -/
def getDayIndexAux : List DayFormat → String → Option Nat
  | [], _ => none
  | f :: rest, day =>
    match listIndexOf (DAY_MAPPINGS f) day with
    | some i => some i
    | none => getDayIndexAux rest day

/-- `getDayIndex`: weekday index (0–6) of a weekday string in any of the
six styles; `none` when no table contains it. -/
def getDayIndex (day : String) : Option Nat :=
  getDayIndexAux dayFormatsInOrder day

/-- `getDayOfWeek`: the table entry for the date's weekday in the given
style (source: `DAY_MAPPINGS[format][date.getDay()]`). -/
def getDayOfWeek (ms : Int) (format : DayFormat) : String :=
  (DAY_MAPPINGS format).getD (jsGetDay ms).toNat ""

/-- `getNextDayOfWeek`: nearest date strictly after (`searchForward =
true`) or strictly before (`searchForward = false`) `base` whose weekday
matches `targetDay`; `none` when `targetDay` resolves to no weekday.
JavaScript `%` is truncating remainder, modelled by `Int.tmod`; the
result date is `base` shifted by whole days (`setDate` in the UTC
model). -/
def getNextDayOfWeek (targetDay : String) (base : Int) (searchForward : Bool) : Option Int :=
  match getDayIndex targetDay with
  | none => none
  | some targetDayIndex =>
    let currentDayIndex : Int := jsGetDay base
    let daysToAdd : Int :=
      if searchForward then
        let x := ((targetDayIndex : Int) - currentDayIndex + 7).tmod 7
        if x = 0 then 7 else x
      else
        let x := ((targetDayIndex : Int) - currentDayIndex - 7).tmod 7
        if x = 0 then -7 else x
    some (base + daysToAdd * msPerDay)

/-! ### Date decomposition helpers used by the picker logic -/

/-- `isSameDay`: same calendar day (year, month, day-of-month); any
comparison involving an invalid date is false, because `NaN === NaN` is
false in JavaScript. -/
def isSameDay : JSDate → JSDate → Bool
  | some a, some b =>
    jsGetFullYear a == jsGetFullYear b &&
      jsGetMonth a == jsGetMonth b &&
      jsGetDate a == jsGetDate b
  | _, _ => false

/-- `subtractDays`: `setDate(getDate() - days)`, which in the UTC model
is a shift by whole days of the time value. -/
def subtractDays (ms : Int) (days : Int) : Int := ms - days * msPerDay

/-- `fromUnixTime`: `new Date(timestamp * 1000)`. -/
def fromUnixTime (timestamp : Int) : JSDate := jsDateFromMs (timestamp * 1000)

/-- Model of `new Date(string)` on the `"YYYY-MM-DD"` date strings the
module's contract admits (§6 of the spec): a date-only ISO string parses
to UTC midnight of that civil date, and a string with out-of-range
components or any other shape is an invalid date. -/
def parseDateString (s : String) : JSDate :=
  match splitOnChar '-' s.data with
  | [ys, ms, ds] =>
    if ys.length = 4 ∧ ms.length = 2 ∧ ds.length = 2 then
      match charsToNat? ys, charsToNat? ms, charsToNat? ds with
      | some y, some m, some d =>
        if 1 ≤ m ∧ m ≤ 12 ∧ 1 ≤ d ∧ d ≤ daysInMonth (y : Int) m then
          jsDateFromMs (daysFromCivil (y : Int) m d * msPerDay)
        else none
      | _, _, _ => none
    else none
  | _ => none

/-- The shared resolution step `str ? new Date(str) : today` of
`isDateDisabled` and `getDefaultOpenMonth`: the empty string is falsy and
resolves to `today`. -/
def resolveDateString (s : String) (today : Int) : JSDate :=
  if s = "" then some today else parseDateString s

/-! ### Month/week arithmetic -/

/-- Weekday index (0 = Sunday) of the civil date `y-m-d`; weekday of
`new Date(y, m - 1, d)` in the UTC model. -/
def weekdayOfCivil (y : Int) (m d : Nat) : Int :=
  (daysFromCivil y m d + 4) % 7

/-- `Math.ceil(a / b)` for integer `a` and positive integer `b` (`/` on
`Int` is floor division). -/
def jsCeilDiv (a b : Int) : Int := (a + b - 1) / b

/-- `getWeekOfMonth`: 1-based week-of-month where week 1 runs from the
1st through the `daysInFirstWeek = 7 - firstDayOfWeek` day. -/
def getWeekOfMonth (ms : Int) : Int :=
  let dayOfMonth : Int := jsGetDate ms
  let firstDayOfWeek : Int := weekdayOfCivil (jsGetFullYear ms) (jsGetMonth ms + 1) 1
  let daysInFirstWeek : Int := 7 - firstDayOfWeek
  if dayOfMonth > daysInFirstWeek then jsCeilDiv (dayOfMonth - daysInFirstWeek) 7 + 1
  else 1

/-- `isDateDisabled`: the date-picker "disabled" predicate; its negation
is the selectability predicate of the spec. -/
def isDateDisabled (date : Int) (startDateStr endDateStr : String) (today : Int) : Bool :=
  let start := resolveDateString startDateStr today
  let endD := resolveDateString endDateStr today
  let endIsToday := isSameDay endD (some today)
  let isStartSameAsEnd := isSameDay start endD
  if isStartSameAsEnd then !(isSameDay (some date) start)
  else if endIsToday then !(isSameDay (some date) (some today))
  else
    jsDateLt (some date) start || jsDateLt endD (some date) ||
      jsDateLt (some date) (some (subtractDays today 1))

/-- `getDefaultOpenMonth`: the month the picker opens on. -/
def getDefaultOpenMonth (startDateStr endDateStr : String) (today : Int) : JSDate :=
  let start := resolveDateString startDateStr today
  let endD := resolveDateString endDateStr today
  if jsDateLt start (some today) then start
  else if jsDateLt (some today) endD then endD
  else some today

/-! ### Formatting and epoch conversion -/

/-- The 2-digit zero-pad helper `pad2` of `formatDate`. -/
def pad2 (num : Nat) : String :=
  if num < 10 then "0" ++ natToString num else natToString num

/-- `formatDate`: token formatter replacing, in this order, `yyyy`, `MM`,
`M`, `dd`, `d` globally. -/
def formatDate (ms : Int) (formatStr : String) : String :=
  let year := jsGetFullYear ms
  let month := jsGetMonth ms + 1
  let day := jsGetDate ms
  jsReplaceAll
    (jsReplaceAll
      (jsReplaceAll
        (jsReplaceAll
          (jsReplaceAll formatStr "yyyy" (intToString year))
          "MM" (pad2 month))
        "M" (natToString month))
      "dd" (pad2 day))
    "d" (natToString day)

/-- `isValidDate`: `!isNaN(date.getTime())`. -/
def isValidDate (date : JSDate) : Bool := date.isSome

/-- The `formatSafeDate` argument: a JavaScript value that is a number,
a string, or `undefined`. -/
inductive DateValue where
  | num (n : Int)
  | str (s : String)
  | undef

/-- JavaScript falsiness of a `DateValue` (`!dateValue`): `undefined`,
the number `0` and the empty string are falsy. -/
def jsFalsy : DateValue → Bool
  | .undef => true
  | .num n => n == 0
  | .str s => s == ""

/-- The numeric-likeness test and coercion of `formatSafeDate`
(`typeof dateValue === 'number' || !isNaN(Number(dateValue))`, then
`Number(dateValue)`): a number is itself; a string is numeric-like iff
`Number(string)` is not `NaN`. -/
def numericValue : DateValue → Option Int
  | .num n => some n
  | .str s => jsNumberOfString s
  | .undef => none

/-- `formatSafeDate`: returns `"-"` for a falsy value; treats a
numeric-like value as epoch milliseconds when above `10^12` and epoch
seconds otherwise; parses anything else as a date string; returns `"-"`
when the constructed date is invalid, and otherwise formats it.  The
source's `try/catch` can never fire in the model, where every branch is
total. -/
def formatSafeDate (dateValue : DateValue) (formatString : String) : String :=
  if jsFalsy dateValue then "-"
  else
    let date : JSDate :=
      match numericValue dateValue with
      | some timestamp =>
        if timestamp > 1000000000000 then jsDateFromMs timestamp
        else fromUnixTime timestamp
      | none =>
        match dateValue with
        | .str s => parseDateString s
        | _ => none
    if isValidDate date then
      match date with
      | some ms => formatDate ms formatString
      | none => "-"
    else "-"

/-- `dateToUnixEpoch`: `Math.floor(date.getTime() / 1000)` on a valid
date (`/` on `Int` is floor division). -/
def dateToUnixEpoch (ms : Int) : Int := ms / 1000

/-- `unixEpochToMilliseconds`: `epochSeconds * 1000`. -/
def unixEpochToMilliseconds (epochSeconds : Int) : Int := epochSeconds * 1000

/-- `unixEpochToDate`: `new Date(epochSeconds * 1000)`. -/
def unixEpochToDate (epochSeconds : Int) : JSDate :=
  jsDateFromMs (epochSeconds * 1000)

-- Sanity checks against the examples in the source's doc comments.
example : formatSafeDate (.num 1714022400) "yyyy/MM/dd" = "2024/04/25" := by decide
example : formatSafeDate (.undef) "yyyy/MM/dd" = "-" := by decide
example : getDayIndex "월" = some 1 := by decide
example : getWeekOfMonth (daysFromCivil 2025 4 24 * msPerDay) = 4 := by decide

/-! ### Helper lemmas -/

/-- The day-of-month produced by `civilFromDays` is always in `[1, 31]`. -/
theorem civilFromDays_day_bounds (z : Int) :
    1 ≤ (civilFromDays z).2.2 ∧ (civilFromDays z).2.2 ≤ 31 := by
  unfold civilFromDays
  dsimp only
  omega

/-- `jsGetDate` is always in `[1, 31]`. -/
theorem jsGetDate_bounds (ms : Int) : 1 ≤ jsGetDate ms ∧ jsGetDate ms ≤ 31 :=
  civilFromDays_day_bounds (jsDayNumber ms)

/-- `jsGetDay` is always in `[0, 6]`. -/
theorem jsGetDay_bounds (ms : Int) : 0 ≤ jsGetDay ms ∧ jsGetDay ms < 7 := by
  unfold jsGetDay
  omega

/-- `weekdayOfCivil` is always in `[0, 6]`. -/
theorem weekdayOfCivil_bounds (y : Int) (m d : Nat) :
    0 ≤ weekdayOfCivil y m d ∧ weekdayOfCivil y m d < 7 := by
  unfold weekdayOfCivil
  omega

/-- Shifting a date by `k` whole days rotates its weekday by `k` mod 7. -/
theorem jsGetDay_add_days (ms k : Int) :
    jsGetDay (ms + k * msPerDay) = (jsGetDay ms + k) % 7 := by
  unfold jsGetDay jsDayNumber msPerDay
  omega

/-- `listIndexOf` only returns positions inside the list. -/
theorem listIndexOf_lt_length {l : List String} {s : String} {i : Nat}
    (h : listIndexOf l s = some i) : i < l.length := by
  induction l generalizing i with
  | nil => simp [listIndexOf] at h
  | cons x rest ih =>
    simp only [listIndexOf] at h
    split at h
    · cases h
      simp
    · obtain ⟨j, hj, rfl⟩ := Option.map_eq_some'.mp h
      have := ih hj
      simp only [List.length_cons]
      omega

/-- The first-match table search only returns indices below 7, because
every style table has exactly 7 entries. -/
theorem getDayIndexAux_lt {fs : List DayFormat} {s : String} {i : Nat}
    (hlen : ∀ f ∈ fs, (DAY_MAPPINGS f).length = 7)
    (h : getDayIndexAux fs s = some i) : i < 7 := by
  induction fs with
  | nil => simp [getDayIndexAux] at h
  | cons f rest ih =>
    simp only [getDayIndexAux] at h
    split at h
    · cases h
      have hlt := listIndexOf_lt_length (by assumption)
      have h7 := hlen f (by simp)
      omega
    · exact ih (fun g hg => hlen g (List.mem_cons_of_mem f hg)) h

/-- A resolved weekday index is always in `[0, 6]`. -/
theorem getDayIndex_lt {s : String} {i : Nat} (h : getDayIndex s = some i) : i < 7 :=
  getDayIndexAux_lt (by decide) h

/-- `getWeekOfMonth` unfolded to its branch structure. -/
theorem getWeekOfMonth_eq (ms : Int) :
    getWeekOfMonth ms =
      if (jsGetDate ms : Int) >
          7 - weekdayOfCivil (jsGetFullYear ms) (jsGetMonth ms + 1) 1 then
        jsCeilDiv
          ((jsGetDate ms : Int) -
            (7 - weekdayOfCivil (jsGetFullYear ms) (jsGetMonth ms + 1) 1)) 7 + 1
      else 1 := rfl

/-! ### Claim theorems -/

/-- **C2.** For every date, `getWeekOfMonth` equals 1 when the
day-of-month is at most `daysInFirstWeek = 7 - weekday(1st of month)`,
and otherwise equals `ceil((dayOfMonth - daysInFirstWeek)/7) + 1`; the
result is at least 1, and the 1st of the month is always in week 1. -/
theorem claim_C2_week_of_month (ms : Int) :
    ((jsGetDate ms : Int) ≤
        7 - weekdayOfCivil (jsGetFullYear ms) (jsGetMonth ms + 1) 1 →
      getWeekOfMonth ms = 1) ∧
    ((jsGetDate ms : Int) >
        7 - weekdayOfCivil (jsGetFullYear ms) (jsGetMonth ms + 1) 1 →
      getWeekOfMonth ms =
        jsCeilDiv
          ((jsGetDate ms : Int) -
            (7 - weekdayOfCivil (jsGetFullYear ms) (jsGetMonth ms + 1) 1)) 7 + 1) ∧
    1 ≤ getWeekOfMonth ms ∧
    (jsGetDate ms = 1 → getWeekOfMonth ms = 1) := by
  have hw := weekdayOfCivil_bounds (jsGetFullYear ms) (jsGetMonth ms + 1) 1
  have hd := jsGetDate_bounds ms
  rw [getWeekOfMonth_eq]
  unfold jsCeilDiv
  refine ⟨?_, ?_, ?_, ?_⟩
  · intro h
    rw [if_neg (by omega)]
  · intro h
    rw [if_pos (by omega)]
  · split <;> omega
  · intro h1
    rw [if_neg (by omega)]

/-- Witness for C2 at the concrete dates 2025-04-01 (week 1) and
2025-04-24 (week 4; the first of April 2025 falls on a Tuesday, so the
first week has 5 days and the 24th lands in week `ceil(19/7)+1 = 4`). -/
theorem claim_C2_week_of_month_witness :
    getWeekOfMonth (daysFromCivil 2025 4 1 * msPerDay) = 1 ∧
    getWeekOfMonth (daysFromCivil 2025 4 24 * msPerDay) = 4 :=
  ⟨(claim_C2_week_of_month (daysFromCivil 2025 4 1 * msPerDay)).2.2.2 (by decide),
   by
    have h := (claim_C2_week_of_month (daysFromCivil 2025 4 24 * msPerDay)).2.1 (by decide)
    rw [h]
    decide⟩

/-- **C10.** `getWeekOfMonth` always lies in `[1, 6]`: the first week has
at least one day and the day-of-month is at most 31, so
`ceil((dayOfMonth - daysInFirstWeek)/7) + 1 ≤ 6`. -/
theorem claim_C10_week_of_month_range (ms : Int) :
    1 ≤ getWeekOfMonth ms ∧ getWeekOfMonth ms ≤ 6 := by
  have hw := weekdayOfCivil_bounds (jsGetFullYear ms) (jsGetMonth ms + 1) 1
  have hd := jsGetDate_bounds ms
  rw [getWeekOfMonth_eq]
  unfold jsCeilDiv
  split <;> omega

/-- **C8.** Converting integer epoch seconds to a date and back is the
identity: for `s` in the representable date range,
`dateToUnixEpoch (unixEpochToDate s) = s`, i.e.
`floor((s * 1000) / 1000) = s`. -/
theorem claim_C8_epoch_round_trip (s : Int) (h : s.natAbs ≤ 8640000000000) :
    ∃ ms, unixEpochToDate s = some ms ∧ dateToUnixEpoch ms = s := by
  refine ⟨s * 1000, ?_, ?_⟩
  · unfold unixEpochToDate jsDateFromMs
    rw [if_pos]
    have : (s * 1000).natAbs = s.natAbs * 1000 := by
      rw [Int.natAbs_mul]
      rfl
    omega
  · unfold dateToUnixEpoch
    omega

/-- Witness for C8 at `s = 1745222400` (2025-04-24T00:00:00Z, the
source's own doc-comment example). -/
theorem claim_C8_epoch_round_trip_witness :
    ∃ ms, unixEpochToDate 1745222400 = some ms ∧ dateToUnixEpoch ms = 1745222400 :=
  claim_C8_epoch_round_trip 1745222400 (by decide)

/-- **C6.** The token formatter replaces `yyyy`, `MM`, `M`, `dd`, `d`
globally, substituting each two-letter token before its single-letter
counterpart: for 2025-04-08, pattern `yyyy-MM-dd` yields `2025-04-08`
and pattern `yyyy-M-d` yields `2025-4-8`. -/
theorem claim_C6_format_tokens :
    formatDate (daysFromCivil 2025 4 8 * msPerDay) "yyyy-MM-dd" = "2025-04-08" ∧
    formatDate (daysFromCivil 2025 4 8 * msPerDay) "yyyy-M-d" = "2025-4-8" :=
  ⟨by decide, by decide⟩

/-- **C7.** Every entry of the 6×7 weekday table round-trips through the
text-to-index lookup: for every style and every index `i ∈ [0, 6]`,
`getDayIndex` applied to that style's table entry for `i` returns `i`. -/
theorem claim_C7_weekday_round_trip :
    ∀ (format : DayFormat) (i : Fin 7),
      getDayIndex ((DAY_MAPPINGS format).getD (i : Nat) "") = some (i : Nat) := by
  decide

/-- Arithmetic of the forward search step of `getNextDayOfWeek`: for
weekday indices `c` (current) and `t` (target), the computed day offset
is in `[1, 7]`, lands on weekday `t`, and is exactly 7 when `c = t`. -/
theorem nextDayStep_forward (c t : Int) (hc0 : 0 ≤ c) (hc : c < 7)
    (ht0 : 0 ≤ t) (ht : t < 7) :
    1 ≤ (if (t - c + 7).tmod 7 = 0 then 7 else (t - c + 7).tmod 7) ∧
    (if (t - c + 7).tmod 7 = 0 then 7 else (t - c + 7).tmod 7) ≤ 7 ∧
    (c + (if (t - c + 7).tmod 7 = 0 then 7 else (t - c + 7).tmod 7)) % 7 = t ∧
    (c = t → (if (t - c + 7).tmod 7 = 0 then 7 else (t - c + 7).tmod 7) = 7) := by
  interval_cases c <;> interval_cases t <;> decide

/-- Arithmetic of the backward search step of `getNextDayOfWeek`: the
computed day offset is in `[-7, -1]`, lands on weekday `t`, and is
exactly `-7` when `c = t`.  JavaScript `%` keeps the dividend's sign, so
`(t - c - 7) % 7` is already in `[-6, 0]`. -/
theorem nextDayStep_backward (c t : Int) (hc0 : 0 ≤ c) (hc : c < 7)
    (ht0 : 0 ≤ t) (ht : t < 7) :
    -7 ≤ (if (t - c - 7).tmod 7 = 0 then -7 else (t - c - 7).tmod 7) ∧
    (if (t - c - 7).tmod 7 = 0 then -7 else (t - c - 7).tmod 7) ≤ -1 ∧
    (c + (if (t - c - 7).tmod 7 = 0 then -7 else (t - c - 7).tmod 7)) % 7 = t ∧
    (c = t → (if (t - c - 7).tmod 7 = 0 then -7 else (t - c - 7).tmod 7) = -7) := by
  interval_cases c <;> interval_cases t <;> decide

/-- **C3.** `getNextDayOfWeek` returns `none` when the target text
resolves to no weekday; otherwise the forward search returns a date
strictly after the base at a day offset in `[1, 7]` whose weekday equals
the target, the backward search one strictly before at an offset in
`[-7, -1]`, and when the base's weekday already equals the target the
offset is exactly `+7` (resp. `-7`), never 0. -/
theorem claim_C3_nearest_weekday (targetDay : String) (base : Int) :
    (getDayIndex targetDay = none →
      getNextDayOfWeek targetDay base true = none ∧
      getNextDayOfWeek targetDay base false = none) ∧
    (∀ t : Nat, getDayIndex targetDay = some t →
      (∃ k : Int, 1 ≤ k ∧ k ≤ 7 ∧
        getNextDayOfWeek targetDay base true = some (base + k * msPerDay) ∧
        base < base + k * msPerDay ∧
        jsGetDay (base + k * msPerDay) = (t : Int) ∧
        (jsGetDay base = (t : Int) → k = 7)) ∧
      (∃ k : Int, -7 ≤ k ∧ k ≤ -1 ∧
        getNextDayOfWeek targetDay base false = some (base + k * msPerDay) ∧
        base + k * msPerDay < base ∧
        jsGetDay (base + k * msPerDay) = (t : Int) ∧
        (jsGetDay base = (t : Int) → k = -7))) := by
  constructor
  · intro h
    constructor <;> simp [getNextDayOfWeek, h]
  · intro t ht
    have ht7 : (t : Int) < 7 := by exact_mod_cast getDayIndex_lt ht
    have ht0 : (0 : Int) ≤ (t : Int) := Int.ofNat_nonneg t
    obtain ⟨hc0, hc7⟩ := jsGetDay_bounds base
    constructor
    · obtain ⟨h1, h2, h3, h4⟩ := nextDayStep_forward (jsGetDay base) t hc0 hc7 ht0 ht7
      refine ⟨_, h1, h2, ?_, by unfold msPerDay; omega, ?_, h4⟩
      · simp only [getNextDayOfWeek, ht, if_true]
      · rw [jsGetDay_add_days]
        exact h3
    · obtain ⟨h1, h2, h3, h4⟩ := nextDayStep_backward (jsGetDay base) t hc0 hc7 ht0 ht7
      refine ⟨_, h1, h2, ?_, by unfold msPerDay; omega, ?_, h4⟩
      · simp only [getNextDayOfWeek, ht, Bool.false_eq_true, if_false]
      · rw [jsGetDay_add_days]
        exact h3

/-- Witness for C3: searching for Monday (`"월"`, index 1) from
1970-01-01 (a Thursday) yields 1970-01-05 forward (offset 4 days) and
1969-12-29 backward (offset −3 days). -/
theorem claim_C3_nearest_weekday_witness :
    getNextDayOfWeek "월" 0 true = some (4 * msPerDay) ∧
    getNextDayOfWeek "월" 0 false = some (-3 * msPerDay) := by
  have h := (claim_C3_nearest_weekday "월" 0).2 1 (by decide)
  obtain ⟨⟨kf, hf1, hf2, hf3, _, hf5, _⟩, ⟨kb, hb1, hb2, hb3, _, hb5, _⟩⟩ := h
  have hkf : kf = 4 := by
    have h0 : jsGetDay ((0 : Int) + kf * msPerDay) = 1 := hf5
    rw [jsGetDay_add_days] at h0
    have : jsGetDay 0 = 4 := by decide
    rw [this] at h0
    omega
  have hkb : kb = -3 := by
    have h0 : jsGetDay ((0 : Int) + kb * msPerDay) = 1 := hb5
    rw [jsGetDay_add_days] at h0
    have : jsGetDay 0 = 4 := by decide
    rw [this] at h0
    omega
  subst hkf hkb
  rw [hf3, hb3]
  constructor <;> norm_num

/-- **C4.** When the range start and end are the same date string, the
selectability predicate (the negation of `isDateDisabled`) holds exactly
on that calendar day, for every `today`: the same-start-and-end case is
evaluated before, and takes precedence over, the end-equals-today case. -/
theorem claim_C4_same_start_end (date today : Int) (s : String)
    (h : (resolveDateString s today).isSome) :
    isDateDisabled date s s today = false ↔
      isSameDay (some date) (resolveDateString s today) = true := by
  obtain ⟨t, ht⟩ := Option.isSome_iff_exists.mp h
  have hrefl : isSameDay (some t) (some t) = true := by simp [isSameDay]
  simp only [isDateDisabled, ht, hrefl, if_true]
  cases isSameDay (some date) (some t) <;> simp

/-- Witness for C4: with start = end = `"2025-04-24"` and `today` the
epoch (1970-01-01, a day on which both the end-equals-today case could
never fire), exactly 2025-04-24 itself is selectable. -/
theorem claim_C4_same_start_end_witness :
    isDateDisabled (daysFromCivil 2025 4 24 * msPerDay) "2025-04-24" "2025-04-24" 0 = false ∧
    isDateDisabled (daysFromCivil 2025 4 25 * msPerDay) "2025-04-24" "2025-04-24" 0 = true :=
  ⟨(claim_C4_same_start_end (daysFromCivil 2025 4 24 * msPerDay) 0 "2025-04-24"
      (by decide)).mpr (by decide),
   by
    have h := claim_C4_same_start_end (daysFromCivil 2025 4 25 * msPerDay) 0 "2025-04-24"
      (by decide)
    revert h
    decide⟩

/-- **C5.** `getDefaultOpenMonth` returns the resolved start if it is
before `today`; otherwise the resolved end if it is after `today`;
otherwise `today` — first-match-wins, so when the start qualifies the end
bound is never consulted. -/
theorem claim_C5_default_open_month (startDateStr endDateStr : String) (today : Int) :
    (jsDateLt (resolveDateString startDateStr today) (some today) = true →
      getDefaultOpenMonth startDateStr endDateStr today =
        resolveDateString startDateStr today) ∧
    (jsDateLt (resolveDateString startDateStr today) (some today) = false →
      jsDateLt (some today) (resolveDateString endDateStr today) = true →
      getDefaultOpenMonth startDateStr endDateStr today =
        resolveDateString endDateStr today) ∧
    (jsDateLt (resolveDateString startDateStr today) (some today) = false →
      jsDateLt (some today) (resolveDateString endDateStr today) = false →
      getDefaultOpenMonth startDateStr endDateStr today = some today) := by
  refine ⟨fun h => ?_, fun h1 h2 => ?_, fun h1 h2 => ?_⟩
  · simp [getDefaultOpenMonth, h]
  · simp [getDefaultOpenMonth, h1, h2]
  · simp [getDefaultOpenMonth, h1, h2]

/-- Witness for C5: with `today` = 2025-04-24, start `"2025-03-15"` is in
the past, so the picker opens on the start month even though the end
`"2025-04-28"` would also qualify. -/
theorem claim_C5_default_open_month_witness :
    getDefaultOpenMonth "2025-03-15" "2025-04-28" (daysFromCivil 2025 4 24 * msPerDay) =
      resolveDateString "2025-03-15" (daysFromCivil 2025 4 24 * msPerDay) :=
  (claim_C5_default_open_month "2025-03-15" "2025-04-28"
    (daysFromCivil 2025 4 24 * msPerDay)).1 (by decide)

/-- **C1.** `formatSafeDate` is total and returns `"-"` for every falsy
value (in particular `undefined`) and for every non-numeric string whose
parse fails; a numeric-like value is an epoch, milliseconds above the
`10^12` threshold and seconds below it, so `1714022400` (seconds) and
`1714022400000` (milliseconds) format identically under every pattern. -/
theorem claim_C1_safe_format (p : String) :
    (∀ v : DateValue, jsFalsy v = true → formatSafeDate v p = "-") ∧
    formatSafeDate .undef p = "-" ∧
    (∀ s : String, jsFalsy (.str s) = false → jsNumberOfString s = none →
      parseDateString s = none → formatSafeDate (.str s) p = "-") ∧
    formatSafeDate (.num 1714022400) p = formatSafeDate (.num 1714022400000) p := by
  refine ⟨fun v hv => ?_, rfl, fun s hs h1 h2 => ?_, rfl⟩
  · simp [formatSafeDate, hv]
  · simp [formatSafeDate, hs, numericValue, h1, h2, isValidDate]

/-- Witness for C1: the falsy number 0 and an unparseable truthy string
both degrade to `"-"`, and the two doc-comment epoch encodings of
2024-04-25 format to the same string. -/
theorem claim_C1_safe_format_witness :
    formatSafeDate (.num 0) "yyyy-MM-dd" = "-" ∧
    formatSafeDate (.str "not-a-date") "yyyy-MM-dd" = "-" ∧
    formatSafeDate (.num 1714022400) "yyyy/MM/dd" =
      formatSafeDate (.num 1714022400000) "yyyy/MM/dd" :=
  ⟨(claim_C1_safe_format "yyyy-MM-dd").1 (.num 0) (by decide),
   (claim_C1_safe_format "yyyy-MM-dd").2.2.1 "not-a-date" (by decide) (by decide) (by decide),
   (claim_C1_safe_format "yyyy/MM/dd").2.2.2⟩

/-- **C9.** The whitespace-only string `" "` is truthy but coerces to the
number 0, so `formatSafeDate` classifies it as an epoch value and formats
1970-01-01 instead of degrading to `"-"`. -/
theorem claim_C9_whitespace_string :
    jsFalsy (.str " ") = false ∧
    jsNumberOfString " " = some 0 ∧
    formatSafeDate (.str " ") "yyyy-MM-dd" = "1970-01-01" ∧
    formatSafeDate (.str " ") "yyyy-MM-dd" ≠ "-" := by
  refine ⟨by decide, by decide, by decide, by decide⟩
